import Mathlib

/-!
# Verification of the Drop room-based content-sharing service

Shallow embedding of the core components of the repository:

* `AccessControl` — the pure access-mode evaluator (`src/web/services/AccessControl.ts`).
* `ContentService` — the content-type classifier (`src/web/services/ContentService.ts`).
* `RoomCode` — the identifier generator and validator (`src/unnamed/part_003`,
  identical copy in `src/web/services/RoomService`).
* `Web` — the JSON-file database of the Next.js prototype (`src/web/lib/db.ts`)
  together with its room-creation action (`src/unnamed/part_004`).
* `Drop` — the Express/Prisma server (`src/drop/server/src/services/roomService.ts`)
  and its cleanup job (`src/unnamed/part_011`).

Timestamps are modelled as natural numbers (milliseconds); `new Date()` becomes an
explicit `now` parameter.  Random sources (`crypto.getRandomValues`, `nanoid`,
`crypto.randomUUID`) become explicit parameters.  Fallible I/O (the blob store, the
database delete) is modelled with explicit success parameters, and functions that can
throw return `Except String` results paired with the post-state.
-/

namespace AccessControl

/-- `AccessMode` from `src/web/services/AccessControl.ts`. -/
inductive AccessMode
  | FULL_ACCESS
  | READ_ONLY
  | DROP_ONLY
deriving DecidableEq, Repr

/-- Operation kinds of the spec's evaluator (§4.2): READ and WRITE. -/
inductive OperationKind
  | READ
  | WRITE
deriving DecidableEq, Repr

/-- `canRead` from `src/web/services/AccessControl.ts`:
`mode === FULL_ACCESS || mode === READ_ONLY`. -/
def canRead (mode : AccessMode) : Bool :=
  mode = AccessMode.FULL_ACCESS || mode = AccessMode.READ_ONLY

/-- `canWrite` from `src/web/services/AccessControl.ts`:
`mode === FULL_ACCESS || mode === DROP_ONLY`. -/
def canWrite (mode : AccessMode) : Bool :=
  mode = AccessMode.FULL_ACCESS || mode = AccessMode.DROP_ONLY

/-- The evaluator over `(mode, operationKind)`: READ operations are gated by
`canRead`, WRITE operations by `canWrite`.  This is how the source dispatches
(reads check `canRead`, uploads check `canWrite`). -/
def evaluate (mode : AccessMode) (op : OperationKind) : Bool :=
  match op with
  | OperationKind.READ => canRead mode
  | OperationKind.WRITE => canWrite mode

/-- The permission table exactly as written in the spec §4.2:
FULL_ACCESS allows both, READ_ONLY allows only READ, DROP_ONLY allows only WRITE.
(Spec-side definition, to be compared with `evaluate`.) -/
def specAccessTable (mode : AccessMode) (op : OperationKind) : Bool :=
  match mode, op with
  | AccessMode.FULL_ACCESS, _ => true
  | AccessMode.READ_ONLY, OperationKind.READ => true
  | AccessMode.READ_ONLY, OperationKind.WRITE => false
  | AccessMode.DROP_ONLY, OperationKind.READ => false
  | AccessMode.DROP_ONLY, OperationKind.WRITE => true

end AccessControl

namespace ContentService

/-- `ContentType` from `src/web/services/ContentService.ts`. -/
inductive ContentType
  | TEXT
  | CODE
  | IMAGE
  | PDF
  | FILE_BLOB
deriving DecidableEq, Repr

/-- JavaScript `String.prototype.includes`: substring containment. -/
def strIncludes (s pat : String) : Bool :=
  (List.range (s.data.length + 1)).any
    (fun i => (s.data.drop i).take pat.data.length = pat.data)

/-- `detectContentType` from `src/web/services/ContentService.ts`.
An empty MIME type is falsy in JavaScript, so it short-circuits to `FILE_BLOB`.
The `fileName` parameter is declared in the source but never read. -/
def detectContentType (mimeType : String) (fileName : Option String) : ContentType :=
  if mimeType = "" then ContentType.FILE_BLOB
  else
    let lowerMime := mimeType.toLower
    if lowerMime.startsWith "image/" then ContentType.IMAGE
    else if lowerMime = "application/pdf" then ContentType.PDF
    else if lowerMime.startsWith "text/" || strIncludes lowerMime "json" ||
        strIncludes lowerMime "javascript" || strIncludes lowerMime "xml" then
      ContentType.TEXT
    else ContentType.FILE_BLOB

end ContentService

namespace RoomCode

/-- The ambiguity-free alphabet of `src/unnamed/part_003`
(`0`, `O`, `1`, `I` and `l` are excluded). -/
def ALPHABET : String := "23456789abcdefghijkmnopqrstuvwxyzABCDEFGHJKLMNPQRSTUVWXYZ"

/-- `generateRoomCode` from `src/unnamed/part_003`, with the random byte array
(`crypto.getRandomValues` on a `Uint8Array(length)`) passed in explicitly: each
byte is mapped to `ALPHABET[byte % ALPHABET_LENGTH]`. -/
def generateRoomCode (bytes : List Nat) : String :=
  ⟨bytes.map (fun b => ALPHABET.data.getD (b % ALPHABET.data.length) 'x')⟩

/-- `isValidRoomCode` from `src/unnamed/part_003`: length must be exactly 8 and
every character must belong to `ALPHABET` (an empty string is falsy and already
fails the length test). -/
def isValidRoomCode (code : String) : Bool :=
  if code.length ≠ 8 then false
  else code.data.all (fun c => ALPHABET.data.contains c)

end RoomCode

namespace Web

/-- `Room` from `src/web/lib/db.ts`: `expiresAt` is nullable (a `null` means the
room never expires). -/
structure Room where
  id : String
  code : String
  createdAt : String
  expiresAt : Option String
deriving DecidableEq, Repr

/-- `ContentItem` from `src/web/lib/db.ts`. -/
structure ContentItem where
  id : String
  type : String
  content : String
  originalFilename : Option String
  mimeType : Option String
  size : Option Nat
  createdAt : String
  roomId : String
deriving DecidableEq, Repr

/-- `DatabaseSchema` from `src/web/lib/db.ts`. -/
structure DatabaseSchema where
  rooms : List Room
  contentItems : List ContentItem
deriving DecidableEq, Repr

namespace DB

/-- `DB.getRoom` from `src/web/lib/db.ts`: first room whose `code` matches, else
`null`. -/
def getRoom (db : DatabaseSchema) (code : String) : Option Room :=
  db.rooms.find? (fun r => r.code == code)

/-- `DB.createRoom` from `src/web/lib/db.ts`: pushes the room unconditionally
(no collision check of any kind). -/
def createRoom (db : DatabaseSchema) (room : Room) : DatabaseSchema :=
  { db with rooms := db.rooms ++ [room] }

/-- `DB.addContent` from `src/web/lib/db.ts`: `unshift`, i.e. the new item is
prepended to the front of the list. -/
def addContent (db : DatabaseSchema) (item : ContentItem) : DatabaseSchema :=
  { db with contentItems := item :: db.contentItems }

/-- `DB.getRoomContent` from `src/web/lib/db.ts`: a plain filter by `roomId`,
with no sorting whatsoever. -/
def getRoomContent (db : DatabaseSchema) (roomId : String) : List ContentItem :=
  db.contentItems.filter (fun i => i.roomId == roomId)

end DB

/-- `createRoom` from `src/unnamed/part_004` (`app/actions.ts`): draws ONE code
via `generateRoomCode()` and stores the room directly via `DB.createRoom`; the
generated code and `crypto.randomUUID()` are passed in explicitly.  There is no
check against the registry and no retry. -/
def createRoomAction (db : DatabaseSchema) (code uuid createdAt : String) :
    DatabaseSchema × Room :=
  let room : Room := { id := uuid, code := code, createdAt := createdAt, expiresAt := none }
  (DB.createRoom db room, room)

end Web

namespace Drop

/-- `Room` of the Prisma schema in `src/drop/docs/storage.md`: `id` is the primary
key, `expiresAt` is NOT NULL, `isPinned` defaults to false.  Timestamps are
milliseconds. -/
structure Room where
  id : String
  createdAt : Nat
  expiresAt : Nat
  isPinned : Bool
deriving DecidableEq, Repr

/-- `RoomItem` of the Prisma schema in `src/drop/docs/storage.md`. -/
structure RoomItem where
  id : String
  roomId : String
  type : String
  content : Option String
  fileKey : Option String
  fileName : Option String
  fileSize : Option Nat
  mimeType : Option String
  createdAt : Nat
deriving DecidableEq, Repr

/-- The durable state the Drop server mutates: the `Room` table, the `RoomItem`
table, and the set of keys present in blob storage. -/
structure DbState where
  rooms : List Room
  items : List RoomItem
  blobs : List String
deriving DecidableEq, Repr

/-- `config.limits.maxItemsPerRoom` from `src/drop/server/src/config.ts`
(default `MAX_ITEMS_PER_ROOM = 1000`). -/
def maxItemsPerRoom : Nat := 1000

/-- Ordering relation used to model Prisma's `orderBy: { createdAt: 'asc' }`:
items are compared on `createdAt` only (the query names no second sort key). -/
def itemLE (a b : RoomItem) : Prop := a.createdAt ≤ b.createdAt

instance : DecidableRel itemLE := fun a b => Nat.decLe a.createdAt b.createdAt

instance : IsTotal RoomItem itemLE := ⟨fun a b => Nat.le_total a.createdAt b.createdAt⟩

instance : IsTrans RoomItem itemLE := ⟨fun _ _ _ h h' => Nat.le_trans h h'⟩

/-- `RoomService.getRoom` from `src/drop/server/src/services/roomService.ts`:
`findUnique` on the room id, including the room's items ordered by `createdAt`
ascending.  The `ORDER BY` on the single key `createdAt` is modelled as a stable
insertion sort by `itemLE`. -/
def getRoom (db : DbState) (roomId : String) : Option (Room × List RoomItem) :=
  match db.rooms.find? (fun r => r.id == roomId) with
  | none => none
  | some room =>
      some (room, List.insertionSort itemLE (db.items.filter (fun i => i.roomId == roomId)))

/-- `RoomService.isRoomValid` from `src/drop/server/src/services/roomService.ts`:
false when the room is absent, false when `room.expiresAt < now` — the
`isPinned` column is never consulted. -/
def isRoomValid (db : DbState) (now : Nat) (roomId : String) : Bool :=
  match db.rooms.find? (fun r => r.id == roomId) with
  | none => false
  | some room => !(room.expiresAt < now : Bool)

/-- `RoomService.createTextItem` from
`src/drop/server/src/services/roomService.ts`.  The server-assigned item id
(Prisma `cuid`) is the explicit `freshId`; `new Date()` is `now`.  Returns the
post-state together with the thrown error or the created item. -/
def createTextItem (db : DbState) (now : Nat) (freshId : String)
    (roomId ty content : String) : DbState × Except String RoomItem :=
  if !(isRoomValid db now roomId) then (db, Except.error "Room not found or expired")
  else if maxItemsPerRoom ≤ (db.items.filter (fun i => i.roomId == roomId)).length then
    (db, Except.error "Room item limit reached")
  else
    let item : RoomItem :=
      { id := freshId, roomId := roomId, type := ty, content := some content,
        fileKey := none, fileName := none, fileSize := none, mimeType := none,
        createdAt := now }
    ({ db with items := db.items ++ [item] }, Except.ok item)

/-- The file-key computation of `RoomService.createFileItem`:
`fileName.split('.').pop() || 'bin'` (an empty last segment is falsy in JS). -/
def extOf (fileName : String) : String :=
  match (fileName.splitOn ".").getLast? with
  | some e => if e = "" then "bin" else e
  | none => "bin"

/-- The blob key `${roomId}/${nanoid()}.${extension}` of
`RoomService.createFileItem`, with the `nanoid()` draw passed in explicitly. -/
def mkFileKey (roomId nano fileName : String) : String :=
  roomId ++ "/" ++ nano ++ "." ++ extOf fileName

/-- `RoomService.createFileItem` from
`src/drop/server/src/services/roomService.ts`: validity check, item-count check,
blob upload (`storage.upload`, whose success is the explicit `uploadOk`), and
only then the metadata insert.  A failed upload throws before any state
mutation. -/
def createFileItem (db : DbState) (now : Nat) (freshId nano : String)
    (uploadOk : Bool) (roomId ty : String) (bufLen : Nat)
    (fileName mimeType : String) : DbState × Except String RoomItem :=
  if !(isRoomValid db now roomId) then (db, Except.error "Room not found or expired")
  else if maxItemsPerRoom ≤ (db.items.filter (fun i => i.roomId == roomId)).length then
    (db, Except.error "Room item limit reached")
  else
    let fileKey := mkFileKey roomId nano fileName
    if !uploadOk then (db, Except.error "Storage upload failed")
    else
      let db1 := { db with blobs := db.blobs ++ [fileKey] }
      let item : RoomItem :=
        { id := freshId, roomId := roomId, type := ty, content := none,
          fileKey := some fileKey, fileName := some fileName,
          fileSize := some bufLen, mimeType := some mimeType, createdAt := now }
      ({ db1 with items := db1.items ++ [item] }, Except.ok item)

/-- `RoomService.deleteRoom` from `src/drop/server/src/services/roomService.ts`:
looks the room up via `getRoom` and throws `'Room not found'` when absent;
otherwise deletes each item's blob (failures there are caught and ignored), then
deletes the room row, which cascades to the item rows.  `dbFail roomId = true`
models the final `prisma.room.delete` throwing (a transient storage failure);
the blob deletions have already happened at that point. -/
def deleteRoom (dbFail : String → Bool) (db : DbState) (roomId : String) :
    DbState × Except String Unit :=
  match getRoom db roomId with
  | none => (db, Except.error "Room not found")
  | some (_, items) =>
      let db1 : DbState :=
        { db with blobs := db.blobs.filter (fun k => !(items.any (fun i => i.fileKey == some k))) }
      if dbFail roomId then (db1, Except.error "Storage failure")
      else
        ({ db1 with rooms := db1.rooms.filter (fun r => r.id != roomId),
                    items := db1.items.filter (fun i => i.roomId != roomId) },
         Except.ok ())

/-- `RoomService.createRoom` from `src/drop/server/src/services/roomService.ts`:
one single `generateRoomId()` draw (passed in as `generatedId`), then
`prisma.room.create` — which rejects a duplicate primary key with a unique-
constraint error.  There is no collision check before the insert and no retry
loop around it.  The calendar arithmetic `expiresAt.setDate(getDate() +
config.room.ttlDays)` is abstracted as adding `ttlMs` milliseconds. -/
def createRoom (db : DbState) (generatedId : String) (now ttlMs : Nat) :
    DbState × Except String Room :=
  if db.rooms.any (fun r => r.id == generatedId) then
    (db, Except.error "Unique constraint failed on the fields: (id)")
  else
    let room : Room :=
      { id := generatedId, createdAt := now, expiresAt := now + ttlMs,
        isPinned := false }
    ({ db with rooms := db.rooms ++ [room] }, Except.ok room)

/-- The reaper's candidate query in `cleanupExpiredRooms`
(`src/unnamed/part_011`): all rooms with `expiresAt < now` and `isPinned =
false`. -/
def expiredCandidates (db : DbState) (now : Nat) : List Room :=
  db.rooms.filter (fun r => r.expiresAt < now && !r.isPinned)

/-- The per-room loop of `cleanupExpiredRooms`: each candidate id is deleted via
`roomService.deleteRoom` inside a `try`/`catch`; a success increments
`successCount`, a failure is logged, increments `failCount`, and the sweep
continues with the next room. -/
def sweepRooms (dbFail : String → Bool) :
    List String → DbState × Nat × Nat → DbState × Nat × Nat
  | [], acc => acc
  | rid :: rest, (st, s, f) =>
      match deleteRoom dbFail st rid with
      | (st', Except.ok _) => sweepRooms dbFail rest (st', s + 1, f)
      | (st', Except.error _) => sweepRooms dbFail rest (st', s, f + 1)

/-- `cleanupExpiredRooms` from `src/unnamed/part_011`: select the expired,
unpinned rooms, then delete them one by one, counting successes and failures.
Returns the post-state with `(successCount, failCount)`. -/
def cleanupExpiredRooms (dbFail : String → Bool) (db : DbState) (now : Nat) :
    DbState × Nat × Nat :=
  sweepRooms dbFail ((expiredCandidates db now).map (fun r => r.id)) (db, 0, 0)

end Drop

/-- The ordering the spec §4.3 demands of the visible timeline: strictly
ascending by the pair `(createdAt, id)`, with the id as tie-break.
(Spec-side definition, to be compared with what the code returns.) -/
def specVisibleOrder (l : List Web.ContentItem) : Prop :=
  List.Pairwise
    (fun x y => x.createdAt < y.createdAt ∨ (x.createdAt = y.createdAt ∧ x.id < y.id)) l

/-! ## Shared helper lemmas -/

/-- Every character produced by `generateRoomCode` is a member of the alphabet. -/
theorem RoomCode.gen_char_mem_alphabet (bytes : List Nat) :
    ∀ c ∈ (RoomCode.generateRoomCode bytes).data, c ∈ RoomCode.ALPHABET.data := by
  intro c hc
  simp only [RoomCode.generateRoomCode, List.mem_map] at hc
  obtain ⟨b, _, rfl⟩ := hc
  have hlen : b % RoomCode.ALPHABET.data.length < RoomCode.ALPHABET.data.length :=
    Nat.mod_lt _ (by decide)
  rw [List.getD_eq_getElem _ _ hlen]
  exact List.getElem_mem hlen

/-- No character of the alphabet is one of the five ambiguous characters. -/
theorem RoomCode.alphabet_no_ambiguous :
    ∀ c ∈ RoomCode.ALPHABET.data, c ∉ ['0', 'O', '1', 'I', 'l'] := by
  decide

/-- `isValidRoomCode` unfolded: length-8 plus alphabet membership, nothing else. -/
theorem RoomCode.isValidRoomCode_iff (s : String) :
    RoomCode.isValidRoomCode s = true ↔
      (s.length = 8 ∧ ∀ c ∈ s.data, c ∈ RoomCode.ALPHABET.data) := by
  unfold RoomCode.isValidRoomCode
  by_cases h : s.length = 8
  · simp [h, List.all_eq_true]
  · simp [h]

/-- The classifier always lands in the four reachable constructors. -/
theorem ContentService.detect_mem (m : String) (f : Option String) :
    ContentService.detectContentType m f ∈
      [ContentService.ContentType.TEXT, ContentService.ContentType.IMAGE,
       ContentService.ContentType.PDF, ContentService.ContentType.FILE_BLOB] := by
  unfold ContentService.detectContentType
  split
  · decide
  · dsimp only
    split
    · decide
    · split
      · decide
      · split
        · decide
        · decide

/-- The classifier never returns the `CODE` constructor. -/
theorem ContentService.detect_ne_code (m : String) (f : Option String) :
    ContentService.detectContentType m f ≠ ContentService.ContentType.CODE := by
  intro h
  have hmem := ContentService.detect_mem m f
  rw [h] at hmem
  exact absurd hmem (by decide)

/-- `deleteRoom` never adds room rows. -/
theorem Drop.deleteRoom_rooms_subset (df : String → Bool) (db : Drop.DbState)
    (rid : String) :
    ∀ r ∈ (Drop.deleteRoom df db rid).1.rooms, r ∈ db.rooms := by
  intro r hr
  unfold Drop.deleteRoom at hr
  rcases hfind : Drop.getRoom db rid with _ | ⟨room, items⟩ <;> rw [hfind] at hr
  · exact hr
  · dsimp only at hr
    by_cases hdf : df rid
    · simpa [hdf] using hr
    · simp only [hdf, Bool.false_eq_true, if_false] at hr
      exact (List.mem_filter.mp hr).1

/-- A room row whose id differs from the deleted id survives `deleteRoom`. -/
theorem Drop.deleteRoom_preserves_other (df : String → Bool) (db : Drop.DbState)
    (rid : String) (r : Drop.Room) (hr : r ∈ db.rooms) (hne : r.id ≠ rid) :
    r ∈ (Drop.deleteRoom df db rid).1.rooms := by
  unfold Drop.deleteRoom
  rcases hfind : Drop.getRoom db rid with _ | ⟨room, items⟩
  · exact hr
  · dsimp only
    by_cases hdf : df rid
    · simpa [hdf] using hr
    · simp only [hdf, Bool.false_eq_true, if_false]
      exact List.mem_filter.mpr ⟨hr, by simpa using hne⟩

/-- If the per-room database failure flag for `rid` is off, no room row with id
`rid` survives `deleteRoom df db rid` (either the row was absent already, or
the delete removed every row with that id). -/
theorem Drop.deleteRoom_clears_id (df : String → Bool) (db : Drop.DbState)
    (rid : String) (hdf : df rid = false) :
    ∀ r ∈ (Drop.deleteRoom df db rid).1.rooms, r.id ≠ rid := by
  intro r hr
  unfold Drop.deleteRoom at hr
  rcases hfind : Drop.getRoom db rid with _ | ⟨room, items⟩ <;> rw [hfind] at hr
  · unfold Drop.getRoom at hfind
    rcases hf : db.rooms.find? (fun x => x.id == rid) with _ | x
    · have := List.find?_eq_none.mp hf r hr
      simpa using this
    · rw [hf] at hfind
      exact absurd hfind (by simp)
  · dsimp only at hr
    rw [hdf] at hr
    simp only [Bool.false_eq_true, if_false] at hr
    have := (List.mem_filter.mp hr).2
    simpa using this

/-- An errored `deleteRoom` leaves the room rows untouched (only blob deletions
may already have happened). -/
theorem Drop.deleteRoom_error_rooms (df : String → Bool) (db : Drop.DbState)
    (rid : String) (st' : Drop.DbState) (e : String)
    (h : Drop.deleteRoom df db rid = (st', Except.error e)) :
    st'.rooms = db.rooms := by
  unfold Drop.deleteRoom at h
  rcases hfind : Drop.getRoom db rid with _ | ⟨room, items⟩ <;> rw [hfind] at h
  · injection h with h1 h2
    rw [← h1]
  · dsimp only at h
    by_cases hdf : df rid
    · rw [if_pos hdf] at h
      injection h with h1 h2
      rw [← h1]
    · rw [if_neg hdf] at h
      injection h with h1 h2
      exact absurd h2 (fun hc => Except.noConfusion hc)

/-- A `deleteRoom` that returns `ok` had its database-failure flag off. -/
theorem Drop.deleteRoom_ok_flag (df : String → Bool) (db : Drop.DbState)
    (rid : String) (st' : Drop.DbState) (u : Unit)
    (h : Drop.deleteRoom df db rid = (st', Except.ok u)) : df rid = false := by
  unfold Drop.deleteRoom at h
  rcases hfind : Drop.getRoom db rid with _ | ⟨room, items⟩ <;> rw [hfind] at h
  · injection h with h1 h2
    exact absurd h2 (fun hc => Except.noConfusion hc)
  · dsimp only at h
    by_cases hdf : df rid
    · rw [if_pos hdf] at h
      injection h with h1 h2
      exact absurd h2 (fun hc => Except.noConfusion hc)
    · exact Bool.eq_false_iff.mpr hdf

/-- The sweep never adds room rows. -/
theorem Drop.sweepRooms_rooms_subset (df : String → Bool) :
    ∀ (rids : List String) (acc : Drop.DbState × Nat × Nat),
      ∀ r ∈ (Drop.sweepRooms df rids acc).1.rooms, r ∈ acc.1.rooms := by
  intro rids
  induction rids with
  | nil => intro acc r hr; exact hr
  | cons rid rest ih =>
      rintro ⟨st, s, f⟩ r hr
      simp only [Drop.sweepRooms] at hr
      rcases hdel : Drop.deleteRoom df st rid with ⟨st', res⟩
      rw [hdel] at hr
      cases res with
      | ok u =>
          have := ih (st', s + 1, f) r hr
          have h1 : st' = (Drop.deleteRoom df st rid).1 := by rw [hdel]
          exact Drop.deleteRoom_rooms_subset df st rid r (h1 ▸ this)
      | error e =>
          have := ih (st', s, f + 1) r hr
          have h1 : st' = (Drop.deleteRoom df st rid).1 := by rw [hdel]
          exact Drop.deleteRoom_rooms_subset df st rid r (h1 ▸ this)

/-- A room row survives the whole sweep when every processed id either differs
from its id or has its per-room failure flag on. -/
theorem Drop.sweepRooms_preserves (df : String → Bool) :
    ∀ (rids : List String) (acc : Drop.DbState × Nat × Nat) (r : Drop.Room),
      r ∈ acc.1.rooms → (∀ rid ∈ rids, rid ≠ r.id ∨ df rid = true) →
      r ∈ (Drop.sweepRooms df rids acc).1.rooms := by
  intro rids
  induction rids with
  | nil => intro acc r hr _; exact hr
  | cons rid rest ih =>
      rintro ⟨st, s, f⟩ r hr hcond
      simp only [Drop.sweepRooms]
      rcases hdel : Drop.deleteRoom df st rid with ⟨st', res⟩
      have hmid : r ∈ st'.rooms := by
        rcases hcond rid (List.mem_cons_self rid rest) with hne | hdf
        · have hother := Drop.deleteRoom_preserves_other df st rid r hr (Ne.symm hne)
          rw [hdel] at hother
          exact hother
        · cases res with
          | ok u =>
              have hflag := Drop.deleteRoom_ok_flag df st rid st' u hdel
              rw [hdf] at hflag
              exact absurd hflag (fun hc => Bool.noConfusion hc)
          | error e =>
              rw [Drop.deleteRoom_error_rooms df st rid st' e hdel]
              exact hr
      cases res with
      | ok u =>
          dsimp only
          exact ih (st', s + 1, f) r hmid
            (fun x hx => hcond x (List.mem_cons_of_mem rid hx))
      | error e =>
          dsimp only
          exact ih (st', s, f + 1) r hmid
            (fun x hx => hcond x (List.mem_cons_of_mem rid hx))

/-- After the sweep, no surviving room row carries a processed id whose
per-room failure flag is off. -/
theorem Drop.sweepRooms_removes (df : String → Bool) :
    ∀ (rids : List String) (acc : Drop.DbState × Nat × Nat) (rid : String),
      rid ∈ rids → df rid = false →
      ∀ r ∈ (Drop.sweepRooms df rids acc).1.rooms, r.id ≠ rid := by
  intro rids
  induction rids with
  | nil => intro acc rid h; exact absurd h (List.not_mem_nil rid)
  | cons head rest ih =>
      rintro ⟨st, s, f⟩ rid hmem hdf r hr
      simp only [Drop.sweepRooms] at hr
      rcases hdel : Drop.deleteRoom df st head with ⟨st', res⟩
      rw [hdel] at hr
      have h1 : st' = (Drop.deleteRoom df st head).1 := by rw [hdel]
      rcases List.mem_cons.mp hmem with heq | hrest
      · subst heq
        have hmid : ∀ x ∈ st'.rooms, x.id ≠ rid := by
          intro x hx
          rw [h1] at hx
          exact Drop.deleteRoom_clears_id df st rid hdf x hx
        cases res with
        | ok u => exact hmid r (Drop.sweepRooms_rooms_subset df rest (st', s + 1, f) r hr)
        | error e => exact hmid r (Drop.sweepRooms_rooms_subset df rest (st', s, f + 1) r hr)
      · cases res with
        | ok u => exact ih (st', s + 1, f) rid hrest hdf r hr
        | error e => exact ih (st', s, f + 1) rid hrest hdf r hr

/-- Every processed room id increments exactly one of the two counters. -/
theorem Drop.sweepRooms_counts (df : String → Bool) :
    ∀ (rids : List String) (acc : Drop.DbState × Nat × Nat),
      (Drop.sweepRooms df rids acc).2.1 + (Drop.sweepRooms df rids acc).2.2
        = acc.2.1 + acc.2.2 + rids.length := by
  intro rids
  induction rids with
  | nil => intro acc; simp [Drop.sweepRooms]
  | cons rid rest ih =>
      rintro ⟨st, s, f⟩
      simp only [Drop.sweepRooms]
      rcases hdel : Drop.deleteRoom df st rid with ⟨st', res⟩
      cases res with
      | ok u =>
          have h2 := ih (st', s + 1, f)
          dsimp only at h2 ⊢
          simp only [List.length_cons]
          omega
      | error e =>
          have h2 := ih (st', s, f + 1)
          dsimp only at h2 ⊢
          simp only [List.length_cons]
          omega

/-- A `createFileItem` call whose blob upload fails mutates nothing: the
post-state is exactly the pre-state. -/
theorem Drop.createFileItem_uploadFail (db : Drop.DbState) (now : Nat)
    (freshId nano roomId ty : String) (bufLen : Nat) (fileName mimeType : String) :
    (Drop.createFileItem db now freshId nano false roomId ty bufLen
      fileName mimeType).1 = db := by
  unfold Drop.createFileItem
  by_cases hv : (!(Drop.isRoomValid db now roomId)) = true
  · rw [if_pos hv]
  · rw [if_neg hv]
    by_cases hcnt : Drop.maxItemsPerRoom ≤
        (db.items.filter (fun i => i.roomId == roomId)).length
    · rw [if_pos hcnt]
    · rw [if_neg hcnt]
      rfl

/-- A successful `createFileItem` returns an item whose `fileKey` is the
generated blob key, and that key is present in the post-state's blob store. -/
theorem Drop.createFileItem_ok (db : Drop.DbState) (now : Nat)
    (freshId nano : String) (uploadOk : Bool) (roomId ty : String) (bufLen : Nat)
    (fileName mimeType : String) (st' : Drop.DbState) (item : Drop.RoomItem)
    (h : Drop.createFileItem db now freshId nano uploadOk roomId ty bufLen
          fileName mimeType = (st', Except.ok item)) :
    item.fileKey = some (Drop.mkFileKey roomId nano fileName)
    ∧ st'.blobs = db.blobs ++ [Drop.mkFileKey roomId nano fileName] := by
  unfold Drop.createFileItem at h
  by_cases hv : (!(Drop.isRoomValid db now roomId)) = true
  · rw [if_pos hv] at h
    injection h with h1 h2
    exact absurd h2 (fun hc => Except.noConfusion hc)
  · rw [if_neg hv] at h
    by_cases hcnt : Drop.maxItemsPerRoom ≤
        (db.items.filter (fun i => i.roomId == roomId)).length
    · rw [if_pos hcnt] at h
      injection h with h1 h2
      exact absurd h2 (fun hc => Except.noConfusion hc)
    · rw [if_neg hcnt] at h
      dsimp only at h
      by_cases hup : (!uploadOk) = true
      · rw [if_pos hup] at h
        injection h with h1 h2
        exact absurd h2 (fun hc => Except.noConfusion hc)
      · rw [if_neg hup] at h
        injection h with h1 h2
        injection h2 with h3
        rw [← h3, ← h1]
        exact ⟨rfl, rfl⟩

/-! ## Claim theorems -/

/-- Claim C4: the Access Control Evaluator is total over all 3 access modes and
2 operation kinds and agrees with the spec's table at every one of the 6
combinations: FULL_ACCESS permits READ and WRITE, READ_ONLY permits only READ,
DROP_ONLY permits only WRITE. -/
theorem access_evaluate_matches_table :
    ∀ (mode : AccessControl.AccessMode) (op : AccessControl.OperationKind),
      AccessControl.evaluate mode op = AccessControl.specAccessTable mode op := by
  intro mode op
  cases mode <;> cases op <;> rfl

/-- Claim C10: `detectContentType` is total and never returns `CODE`: for every
`(mimeType, fileName)` input it returns one of TEXT, IMAGE, PDF, FILE_BLOB, and
an empty MIME type maps to FILE_BLOB. -/
theorem detectContentType_never_CODE (mimeType : String) (fileName : Option String) :
    ContentService.detectContentType mimeType fileName ≠ ContentService.ContentType.CODE
    ∧ ContentService.detectContentType mimeType fileName ∈
        [ContentService.ContentType.TEXT, ContentService.ContentType.IMAGE,
         ContentService.ContentType.PDF, ContentService.ContentType.FILE_BLOB]
    ∧ ContentService.detectContentType "" fileName = ContentService.ContentType.FILE_BLOB :=
  ⟨ContentService.detect_ne_code mimeType fileName,
   ContentService.detect_mem mimeType fileName, rfl⟩

/-- Claim C8: every code produced by the Identifier Generator from a default-
length draw (8 random bytes) has length exactly 8, uses only the ambiguity-free
alphabet (no `0`, `O`, `1`, `I`, `l`), and is accepted by `isValidRoomCode`;
conversely `isValidRoomCode` checks exactly length-8 plus alphabet membership,
so it also accepts codes that map to no live room (e.g. `"22222222"` against an
empty registry). -/
theorem roomCode_wellFormed (bytes : List Nat) (h : bytes.length = 8) :
    (RoomCode.generateRoomCode bytes).length = 8
    ∧ (∀ c ∈ (RoomCode.generateRoomCode bytes).data,
        c ∈ RoomCode.ALPHABET.data ∧ c ∉ ['0', 'O', '1', 'I', 'l'])
    ∧ RoomCode.isValidRoomCode (RoomCode.generateRoomCode bytes) = true
    ∧ (∀ s : String, RoomCode.isValidRoomCode s = true ↔
        (s.length = 8 ∧ ∀ c ∈ s.data, c ∈ RoomCode.ALPHABET.data))
    ∧ (RoomCode.isValidRoomCode "22222222" = true
        ∧ Web.DB.getRoom ⟨[], []⟩ "22222222" = none) := by
  have hlen : (RoomCode.generateRoomCode bytes).length = 8 := by
    show (bytes.map _).length = 8
    rw [List.length_map]
    exact h
  refine ⟨hlen, ?_, ?_, RoomCode.isValidRoomCode_iff, by decide, rfl⟩
  · intro c hc
    exact ⟨RoomCode.gen_char_mem_alphabet bytes c hc,
      RoomCode.alphabet_no_ambiguous c (RoomCode.gen_char_mem_alphabet bytes c hc)⟩
  · exact (RoomCode.isValidRoomCode_iff _).mpr
      ⟨hlen, RoomCode.gen_char_mem_alphabet bytes⟩

/-- Witness for C8 at the concrete byte draw `[0, 1, 2, 3, 4, 5, 6, 7]`. -/
theorem roomCode_wellFormed_witness :
    RoomCode.isValidRoomCode
      (RoomCode.generateRoomCode [0, 1, 2, 3, 4, 5, 6, 7]) = true :=
  (roomCode_wellFormed [0, 1, 2, 3, 4, 5, 6, 7] (by decide)).2.2.1

/-- Counterexample to C2: deleting a never-existing room does not succeed as a
no-op — `deleteRoom` on an empty registry throws `'Room not found'`. -/
theorem deleteRoom_nonexistent_fails :
    (Drop.deleteRoom (fun _ => false) ⟨[], [], []⟩ "RRRRRRRR").2
        = Except.error "Room not found"
    ∧ (Drop.deleteRoom (fun _ => false) ⟨[], [], []⟩ "RRRRRRRR").2
        ≠ Except.ok () := by
  exact ⟨rfl, fun h => Except.noConfusion h⟩

/-- Claim C2 (amended): `deleteRoom` is NOT idempotent at the service layer:
deleting a never-existing room, or deleting a room a second time after a
successful delete, fails with `'Room not found'` instead of succeeding as a
no-op (the cleanup job and the HTTP route catch this error, so racing deletes
surface an error rather than corrupting state). -/
theorem deleteRoom_not_idempotent (df : String → Bool) (db : Drop.DbState)
    (rid : String) :
    (db.rooms.find? (fun r => r.id == rid) = none →
      Drop.deleteRoom df db rid = (db, Except.error "Room not found"))
    ∧ (∀ st', Drop.deleteRoom df db rid = (st', Except.ok ()) →
        Drop.deleteRoom df st' rid = (st', Except.error "Room not found")) := by
  constructor
  · intro h
    unfold Drop.deleteRoom Drop.getRoom
    rw [h]
  · intro st' h
    unfold Drop.deleteRoom Drop.getRoom at h ⊢
    rcases hfind : db.rooms.find? (fun r => r.id == rid) with _ | room
    · rw [hfind] at h
      simp at h
    · rw [hfind] at h
      dsimp only at h
      by_cases hdf : df rid
      · simp [hdf] at h
      · simp only [hdf, if_neg, Bool.false_eq_true, if_false] at h
        have hst : st'.rooms = db.rooms.filter (fun r => r.id != rid) := by
          have := congrArg (fun p => (Prod.fst p).rooms) h
          simpa using this.symm
        have hnone : st'.rooms.find? (fun r => r.id == rid) = none := by
          rw [hst, List.find?_eq_none]
          intro r hr
          have := (List.mem_filter.mp hr).2
          simpa using this
        rw [hnone]

/-- Witness for C2's amended theorem: a concrete never-existing room. -/
theorem deleteRoom_not_idempotent_witness :
    Drop.deleteRoom (fun _ => false) ⟨[], [], []⟩ "AAAAAAAA"
      = (⟨[], [], []⟩, Except.error "Room not found") :=
  (deleteRoom_not_idempotent (fun _ => false) ⟨[], [], []⟩ "AAAAAAAA").1 rfl

/-- Counterexample to C6: a room that exists and is pinned but whose `expiresAt`
lies in the past.  The claim's failure condition "expired-and-not-pinned" does
not hold, and the room is empty, so the claim requires `put` to persist the
item; `createTextItem` nevertheless fails with `'Room not found or expired'`
because `isRoomValid` ignores `isPinned`. -/
theorem put_pinnedExpired_counterexample :
    (Drop.Room.mk "RRRRRRRR" 0 5 true).isPinned = true
    ∧ (Drop.Room.mk "RRRRRRRR" 0 5 true).expiresAt < 10
    ∧ Drop.createTextItem ⟨[Drop.Room.mk "RRRRRRRR" 0 5 true], [], []⟩ 10
        "item1" "RRRRRRRR" "text" "hello"
      = (⟨[Drop.Room.mk "RRRRRRRR" 0 5 true], [], []⟩,
         Except.error "Room not found or expired") :=
  ⟨rfl, by decide, rfl⟩

/-- Claim C6 (amended): `createTextItem` fails with `'Room not found or
expired'` when the room does not exist or is expired at evaluation time
regardless of pin status; fails with `'Room item limit reached'` when the room's
item count meets the configured ceiling; and otherwise persists the metadata and
returns the stored item with the server-assigned id and `createdAt = now`. -/
theorem createTextItem_contract (db : Drop.DbState) (now : Nat)
    (freshId rid ty content : String) :
    (db.rooms.find? (fun r => r.id == rid) = none →
      Drop.createTextItem db now freshId rid ty content
        = (db, Except.error "Room not found or expired"))
    ∧ (∀ room, db.rooms.find? (fun r => r.id == rid) = some room →
        room.expiresAt < now →
        Drop.createTextItem db now freshId rid ty content
          = (db, Except.error "Room not found or expired"))
    ∧ (∀ room, db.rooms.find? (fun r => r.id == rid) = some room →
        ¬(room.expiresAt < now) →
        Drop.maxItemsPerRoom ≤ (db.items.filter (fun i => i.roomId == rid)).length →
        Drop.createTextItem db now freshId rid ty content
          = (db, Except.error "Room item limit reached"))
    ∧ (∀ room, db.rooms.find? (fun r => r.id == rid) = some room →
        ¬(room.expiresAt < now) →
        (db.items.filter (fun i => i.roomId == rid)).length < Drop.maxItemsPerRoom →
        ∃ item : Drop.RoomItem,
          Drop.createTextItem db now freshId rid ty content
            = ({ db with items := db.items ++ [item] }, Except.ok item)
          ∧ item.id = freshId ∧ item.createdAt = now ∧ item.roomId = rid) := by
  refine ⟨?_, ?_, ?_, ?_⟩
  · intro h
    unfold Drop.createTextItem Drop.isRoomValid
    rw [h]
    rfl
  · intro room hfind hexp
    unfold Drop.createTextItem Drop.isRoomValid
    rw [hfind]
    simp [hexp]
  · intro room hfind hexp hfull
    unfold Drop.createTextItem Drop.isRoomValid
    rw [hfind]
    simp [hexp, hfull]
  · intro room hfind hexp hroomy
    unfold Drop.createTextItem Drop.isRoomValid
    rw [hfind]
    refine ⟨{ id := freshId, roomId := rid, type := ty, content := some content,
              fileKey := none, fileName := none, fileSize := none,
              mimeType := none, createdAt := now }, ?_, rfl, rfl, rfl⟩
    simp [hexp, Nat.not_le.mpr hroomy]

/-- Claim C1: a pinned room is never selected by the reaper's candidate query
and is never deleted by the automatic reaper — regardless of how far in the
past its `expiresAt` lies, of which per-room deletions fail, and of the rest of
the registry (whose room ids are unique, as the primary key guarantees). -/
theorem pinned_room_immune (df : String → Bool) (db : Drop.DbState) (now : Nat)
    (r : Drop.Room) (hmem : r ∈ db.rooms) (hpin : r.isPinned = true)
    (hnodup : (db.rooms.map (fun x => x.id)).Nodup) :
    r ∉ Drop.expiredCandidates db now
    ∧ r ∈ (Drop.cleanupExpiredRooms df db now).1.rooms := by
  constructor
  · intro hc
    have hp := (List.mem_filter.mp hc).2
    rw [hpin] at hp
    simp at hp
  · apply Drop.sweepRooms_preserves df _ _ r hmem
    intro rid hrid
    left
    rcases List.mem_map.mp hrid with ⟨c, hc, rfl⟩
    intro hid
    have hcr : c ∈ db.rooms := (List.mem_filter.mp hc).1
    have : c = r := List.inj_on_of_nodup_map hnodup hcr hmem hid
    have hcpin := (List.mem_filter.mp hc).2
    rw [this, hpin] at hcpin
    simp at hcpin

/-- Witness for C1: a pinned room whose `expiresAt` lies far in the past, next
to an expired unpinned room, survives a reaper run that deletes the other. -/
theorem pinned_room_immune_witness :
    Drop.Room.mk "PINNED00" 0 1 true ∉
      Drop.expiredCandidates
        ⟨[Drop.Room.mk "PINNED00" 0 1 true, Drop.Room.mk "EXPIRED0" 0 5 false],
         [], []⟩ 1000000
    ∧ Drop.Room.mk "PINNED00" 0 1 true ∈
      (Drop.cleanupExpiredRooms (fun _ => false)
        ⟨[Drop.Room.mk "PINNED00" 0 1 true, Drop.Room.mk "EXPIRED0" 0 5 false],
         [], []⟩ 1000000).1.rooms :=
  pinned_room_immune (fun _ => false)
    ⟨[Drop.Room.mk "PINNED00" 0 1 true, Drop.Room.mk "EXPIRED0" 0 5 false], [], []⟩
    1000000 (Drop.Room.mk "PINNED00" 0 1 true)
    (by decide) rfl (by decide)

/-- Claim C9: a failure while deleting one room does not abort the sweep: every
candidate whose per-room delete fails stays in the registry (still expired, to
be retried on the next run), every candidate whose delete succeeds is removed,
and every candidate in the batch is processed — the success and failure
counters sum to the batch size. -/
theorem sweep_failure_isolation (df : String → Bool) (db : Drop.DbState)
    (now : Nat) :
    (∀ r ∈ Drop.expiredCandidates db now, df r.id = true →
      r ∈ (Drop.cleanupExpiredRooms df db now).1.rooms)
    ∧ (∀ r ∈ Drop.expiredCandidates db now, df r.id = false →
      ∀ r' ∈ (Drop.cleanupExpiredRooms df db now).1.rooms, r'.id ≠ r.id)
    ∧ (Drop.cleanupExpiredRooms df db now).2.1
        + (Drop.cleanupExpiredRooms df db now).2.2
      = (Drop.expiredCandidates db now).length := by
  refine ⟨?_, ?_, ?_⟩
  · intro r hr hdf
    apply Drop.sweepRooms_preserves df _ _ r (List.mem_filter.mp hr).1
    intro rid hrid
    by_cases hid : rid = r.id
    · right
      rw [hid, hdf]
    · left
      exact hid
  · intro r hr hdf r' hr'
    exact Drop.sweepRooms_removes df _ _ r.id
      (List.mem_map.mpr ⟨r, hr, rfl⟩) hdf r' hr'
  · have := Drop.sweepRooms_counts df
      ((Drop.expiredCandidates db now).map (fun x => x.id)) (db, 0, 0)
    unfold Drop.cleanupExpiredRooms
    rw [this]
    simp

/-- Witness for C9: two expired rooms, one of which fails to delete; the failed
one remains, the other is removed, and both were processed. -/
theorem sweep_failure_isolation_witness :
    Drop.Room.mk "FAILROOM" 0 5 false ∈
      (Drop.cleanupExpiredRooms (fun s => s == "FAILROOM")
        ⟨[Drop.Room.mk "FAILROOM" 0 5 false, Drop.Room.mk "OKROOM00" 0 5 false],
         [], []⟩ 1000).1.rooms
    ∧ (∀ r' ∈ (Drop.cleanupExpiredRooms (fun s => s == "FAILROOM")
        ⟨[Drop.Room.mk "FAILROOM" 0 5 false, Drop.Room.mk "OKROOM00" 0 5 false],
         [], []⟩ 1000).1.rooms, r'.id ≠ "OKROOM00")
    ∧ (Drop.cleanupExpiredRooms (fun s => s == "FAILROOM")
        ⟨[Drop.Room.mk "FAILROOM" 0 5 false, Drop.Room.mk "OKROOM00" 0 5 false],
         [], []⟩ 1000).2.1
      + (Drop.cleanupExpiredRooms (fun s => s == "FAILROOM")
        ⟨[Drop.Room.mk "FAILROOM" 0 5 false, Drop.Room.mk "OKROOM00" 0 5 false],
         [], []⟩ 1000).2.2 = 2 :=
  ⟨(sweep_failure_isolation (fun s => s == "FAILROOM")
      ⟨[Drop.Room.mk "FAILROOM" 0 5 false, Drop.Room.mk "OKROOM00" 0 5 false],
       [], []⟩ 1000).1
      (Drop.Room.mk "FAILROOM" 0 5 false) (by decide) (by decide),
   (sweep_failure_isolation (fun s => s == "FAILROOM")
      ⟨[Drop.Room.mk "FAILROOM" 0 5 false, Drop.Room.mk "OKROOM00" 0 5 false],
       [], []⟩ 1000).2.1
      (Drop.Room.mk "OKROOM00" 0 5 false) (by decide) (by decide),
   by
    have h3 := (sweep_failure_isolation (fun s => s == "FAILROOM")
      ⟨[Drop.Room.mk "FAILROOM" 0 5 false, Drop.Room.mk "OKROOM00" 0 5 false],
       [], []⟩ 1000).2.2
    rw [h3]
    decide⟩

/-- Witness for C6's amended theorem: the success case on a live room. -/
theorem createTextItem_contract_witness :
    ∃ item : Drop.RoomItem,
      Drop.createTextItem ⟨[Drop.Room.mk "RRRRRRRR" 0 100 false], [], []⟩ 10
          "item1" "RRRRRRRR" "text" "hello"
        = ({ rooms := [Drop.Room.mk "RRRRRRRR" 0 100 false], items := [item],
             blobs := [] }, Except.ok item)
      ∧ item.id = "item1" ∧ item.createdAt = 10 ∧ item.roomId = "RRRRRRRR" :=
  (createTextItem_contract ⟨[Drop.Room.mk "RRRRRRRR" 0 100 false], [], []⟩ 10
      "item1" "RRRRRRRR" "text" "hello").2.2.2
    (Drop.Room.mk "RRRRRRRR" 0 100 false) rfl (by decide) (by decide)

/-- Claim C3: for a file-type `put`, the blob is written before the metadata
row is committed, and a failed blob write aborts the operation with no metadata
persisted: after any failed blob write, zero metadata rows reference the
(nonexistent) blob key; and whenever the operation succeeds, the stored item's
blob key does exist in the blob store. -/
theorem put_file_blob_ordering (db : Drop.DbState) (now : Nat)
    (freshId nano : String) (uploadOk : Bool) (roomId ty : String)
    (bufLen : Nat) (fileName mimeType : String)
    (hfresh : ∀ i ∈ db.items,
      i.fileKey ≠ some (Drop.mkFileKey roomId nano fileName)) :
    (uploadOk = false →
      (Drop.createFileItem db now freshId nano uploadOk roomId ty bufLen
        fileName mimeType).1 = db
      ∧ ∀ i ∈ (Drop.createFileItem db now freshId nano uploadOk roomId ty
          bufLen fileName mimeType).1.items,
          i.fileKey ≠ some (Drop.mkFileKey roomId nano fileName))
    ∧ (∀ (st' : Drop.DbState) (item : Drop.RoomItem),
        Drop.createFileItem db now freshId nano uploadOk roomId ty bufLen
          fileName mimeType = (st', Except.ok item) →
        ∃ k, item.fileKey = some k ∧ k ∈ st'.blobs) := by
  constructor
  · intro hup
    subst hup
    have h1 := Drop.createFileItem_uploadFail db now freshId nano roomId ty
      bufLen fileName mimeType
    refine ⟨h1, ?_⟩
    rw [h1]
    exact hfresh
  · intro st' item hok
    obtain ⟨hk, hb⟩ := Drop.createFileItem_ok db now freshId nano uploadOk
      roomId ty bufLen fileName mimeType st' item hok
    refine ⟨Drop.mkFileKey roomId nano fileName, hk, ?_⟩
    rw [hb]
    exact List.mem_append_right _ (List.mem_singleton.mpr rfl)

/-- Witness for C3: a simulated blob-write failure on a live, empty room leaves
the database exactly as it was. -/
theorem put_file_blob_ordering_witness :
    (Drop.createFileItem ⟨[Drop.Room.mk "RRRRRRRR" 0 100 false], [], []⟩ 10
        "item1" "nano1" false "RRRRRRRR" "image" 3 "cat.png" "image/png").1
      = ⟨[Drop.Room.mk "RRRRRRRR" 0 100 false], [], []⟩
    ∧ ∀ i ∈ (Drop.createFileItem ⟨[Drop.Room.mk "RRRRRRRR" 0 100 false], [], []⟩
        10 "item1" "nano1" false "RRRRRRRR" "image" 3 "cat.png" "image/png").1.items,
        i.fileKey ≠ some (Drop.mkFileKey "RRRRRRRR" "nano1" "cat.png") :=
  (put_file_blob_ordering ⟨[Drop.Room.mk "RRRRRRRR" 0 100 false], [], []⟩ 10
      "item1" "nano1" false "RRRRRRRR" "image" 3 "cat.png" "image/png"
      (by intro i hi; exact absurd hi (List.not_mem_nil i))).1 rfl

/-- Counterexample to C5: in the web variant two items inserted in
chronological order come back in REVERSE chronological order (`addContent`
prepends and `getRoomContent` never sorts), so `listVisible` does not return
items sorted ascending by `(createdAt, id)`. -/
theorem listVisible_order_counterexample :
    Web.DB.getRoomContent
        (Web.DB.addContent
          (Web.DB.addContent ⟨[], []⟩
            (Web.ContentItem.mk "a" "text" "hello" none none none
              "2024-01-01T00:00:00.000Z" "r1"))
          (Web.ContentItem.mk "b" "text" "world" none none none
            "2024-01-02T00:00:00.000Z" "r1")) "r1"
      = [Web.ContentItem.mk "b" "text" "world" none none none
          "2024-01-02T00:00:00.000Z" "r1",
         Web.ContentItem.mk "a" "text" "hello" none none none
          "2024-01-01T00:00:00.000Z" "r1"]
    ∧ ¬ specVisibleOrder
        (Web.DB.getRoomContent
          (Web.DB.addContent
            (Web.DB.addContent ⟨[], []⟩
              (Web.ContentItem.mk "a" "text" "hello" none none none
                "2024-01-01T00:00:00.000Z" "r1"))
            (Web.ContentItem.mk "b" "text" "world" none none none
              "2024-01-02T00:00:00.000Z" "r1")) "r1") := by
  constructor
  · rfl
  · intro h
    have h2 := List.rel_of_pairwise_cons h (List.mem_singleton.mpr rfl)
    rcases h2 with hlt | ⟨heq, _⟩
    · rw [String.lt_iff_toList_lt] at hlt
      exact absurd hlt (by decide)
    · exact absurd heq (by decide)

/-- Claim C5 (amended): the Drop server's `getRoom` returns the room's items
sorted ascending by `createdAt` ONLY — a permutation of the room's item rows in
nondecreasing `createdAt` order, with no id tie-break (ties keep store order),
while the web variant returns items unsorted in reverse insertion order. -/
theorem getRoom_items_sortedByCreatedAt (db : Drop.DbState) (rid : String)
    (room : Drop.Room) (its : List Drop.RoomItem)
    (h : Drop.getRoom db rid = some (room, its)) :
    List.Pairwise Drop.itemLE its
    ∧ its.Perm (db.items.filter (fun i => i.roomId == rid)) := by
  unfold Drop.getRoom at h
  rcases hfind : db.rooms.find? (fun r => r.id == rid) with _ | r <;> rw [hfind] at h
  · exact absurd h (by simp)
  · injection h with h1
    injection h1 with h2 h3
    rw [← h3]
    exact ⟨List.sorted_insertionSort Drop.itemLE _,
      List.perm_insertionSort Drop.itemLE _⟩

/-- Witness for C5's amended theorem: two items stored out of order come back
sorted by `createdAt`. -/
theorem getRoom_items_sortedByCreatedAt_witness :
    List.Pairwise Drop.itemLE
      [Drop.RoomItem.mk "a" "R" "text" (some "x") none none none none 1,
       Drop.RoomItem.mk "b" "R" "text" (some "y") none none none none 2]
    ∧ List.Perm
      [Drop.RoomItem.mk "a" "R" "text" (some "x") none none none none 1,
       Drop.RoomItem.mk "b" "R" "text" (some "y") none none none none 2]
      (List.filter (fun i => i.roomId == "R")
        [Drop.RoomItem.mk "b" "R" "text" (some "y") none none none none 2,
         Drop.RoomItem.mk "a" "R" "text" (some "x") none none none none 1]) :=
  getRoom_items_sortedByCreatedAt
    ⟨[Drop.Room.mk "R" 0 100 false],
     [Drop.RoomItem.mk "b" "R" "text" (some "y") none none none none 2,
      Drop.RoomItem.mk "a" "R" "text" (some "x") none none none none 1], []⟩
    "R" (Drop.Room.mk "R" 0 100 false)
    [Drop.RoomItem.mk "a" "R" "text" (some "x") none none none none 1,
     Drop.RoomItem.mk "b" "R" "text" (some "y") none none none none 2]
    (by rfl)

/-- Claim C7, evaluated at the failing input: room creation performs NO
collision retry.  In the web variant (`src/unnamed/part_004`), creating with a
draw that collides with an existing room's code simply appends a second room
with the same code — two rooms then share the code (the original is still the
one `getRoom` returns, so nothing is overwritten, but no fresh draw and no
allocation failure ever happen).  In the Drop variant, the single
`prisma.room.create` fails on the first collision with a unique-constraint
error instead of retrying. -/
theorem createRoom_no_collision_retry :
    ((Web.createRoomAction ⟨[Web.Room.mk "uuid1" "abcdefgh" "t0" none], []⟩
        "abcdefgh" "uuid2" "t1").1.rooms.filter
          (fun r => r.code == "abcdefgh")).length = 2
    ∧ Web.DB.getRoom (Web.createRoomAction
          ⟨[Web.Room.mk "uuid1" "abcdefgh" "t0" none], []⟩
          "abcdefgh" "uuid2" "t1").1 "abcdefgh"
      = some (Web.Room.mk "uuid1" "abcdefgh" "t0" none)
    ∧ (Web.createRoomAction ⟨[Web.Room.mk "uuid1" "abcdefgh" "t0" none], []⟩
        "abcdefgh" "uuid2" "t1").2.code = "abcdefgh"
    ∧ Drop.createRoom ⟨[Drop.Room.mk "SAMECODE" 0 100 false], [], []⟩
        "SAMECODE" 50 604800000
      = (⟨[Drop.Room.mk "SAMECODE" 0 100 false], [], []⟩,
         Except.error "Unique constraint failed on the fields: (id)") := by
  exact ⟨by decide, by decide, rfl, rfl⟩
